import Mathlib

/-!
Shallow embedding of the `spaces` crate (wschella/spaces): the cardinality
model, the concrete discrete spaces (`Discrete`, `Binary`, `Naturals`) and
the custom serde deserializer of `Discrete`, together with theorems about
the spec's claims.

Conventions of the embedding:
* `usize`/`u64` values are modelled as `Nat` (no arithmetic in the sources
  overflows: the only subtraction, `size - 1` in `Discrete::sup`, is only
  reachable for `size > 0`, see `Discrete.new`).
* Rust panics (an `assert!` in a callee, `unimplemented!()`) are modelled as
  `Option`: `none` is the panic.
* `f64` inputs of `Binary`'s sign-test surjection are modelled as `ℚ`; the
  IEEE-754 comparison `val > 0.0` agrees with the rational order on every
  finite float, and the claims only evaluate it at `1.0`, `-1.0`, `0.0`.
* A caller-supplied rng is modelled as the value it draws: a `Nat` draw for
  a uniform integer sample, a `Bool` draw for `rng.gen::<bool>()`.
-/

/-- Modelled from the spec (§3): the `Card` cardinality enum of
`src/core/card.rs`, which is re-exported by `src/core/mod.rs` but whose file
is not in the tree: a tagged value `Finite(n)` or `Infinite`, with structural
equality. -/
inductive Card where
  | Finite (n : Nat)
  | Infinite
deriving DecidableEq, Repr

/-- Rust `std::ops::Range<α>`: the half-open interval `start..stop`
(Rust calls the second field `end`, a reserved word here). -/
structure RustRange (α : Type) where
  start : α
  stop : α
deriving DecidableEq, Repr

/-- Iterating a Rust `Range<usize>` yields `start, start+1, ..., stop-1`. -/
def RustRange.toListNat (r : RustRange Nat) : List Nat :=
  List.range' r.start (r.stop - r.start)

/-- Rust's `PartialOrd` on `bool`: `false < true`. -/
def boolLt (a b : Bool) : Bool := !a && b

/-- Rust's `<=` on `bool`. -/
def boolLe (a b : Bool) : Bool := !a || b

/-- The set denoted by a Rust `Range<bool>` (`start..stop` is half-open), as
an ascending list. Note that in Rust `Range<bool>` implements no `Iterator`
(`bool` is not `Step`); this is the range's set semantics. -/
def RustRange.membersBool (r : RustRange Bool) : List Bool :=
  [false, true].filter fun b => boolLe r.start b && boolLt b r.stop

/-- Model of `rand`'s `distributions::Range` (alias of `Uniform`) over
`usize`: a uniform distribution on the half-open interval `[low, high)`. -/
structure RngRange where
  low : Nat
  high : Nat
deriving DecidableEq, Repr

/-- `Range::new(low, high)` asserts `low < high` and panics otherwise
(modelled as `none`). -/
def RngRange.new (low high : Nat) : Option RngRange :=
  if low < high then some { low := low, high := high } else none

/-- Drawing from the uniform distribution: the result lies in `[low, high)`.
The rng is modelled by the `Nat` it draws. -/
def RngRange.draw (r : RngRange) (rng : Nat) : Nat :=
  r.low + rng % (r.high - r.low)

/-- `struct Discrete { size: usize, range: RngRange<usize> }`
(src/discrete/discrete.rs). -/
structure Discrete where
  size : Nat
  range : RngRange
deriving DecidableEq, Repr

/-- `Discrete::new(size)`: stores `size` and `RngRange::new(0, size)`; the
latter panics when `size == 0`. -/
def Discrete.new (size : Nat) : Option Discrete :=
  (RngRange.new 0 size).map fun r => { size := size, range := r }

/-- `Space::dim` for `Discrete`. -/
def Discrete.dim (_ : Discrete) : Nat := 1

/-- `Space::card` for `Discrete`: `Card::Finite(self.size)`. -/
def Discrete.card (d : Discrete) : Card := Card.Finite d.size

/-- `Space::sample` for `Discrete`: `self.range.sample(rng)`. -/
def Discrete.sample (d : Discrete) (rng : Nat) : Nat := d.range.draw rng

/-- `BoundedSpace::inf` for `Discrete`: `Some(0)`. -/
def Discrete.inf (_ : Discrete) : Option Nat := some 0

/-- `BoundedSpace::sup` for `Discrete`: `Some(self.size - 1)` (`usize`
subtraction; only reachable with `size > 0` since `new(0)` panics). -/
def Discrete.sup (d : Discrete) : Option Nat := some (d.size - 1)

/-- `BoundedSpace::contains` for `Discrete`: `val < self.size`. -/
def Discrete.contains (d : Discrete) (val : Nat) : Bool := val < d.size

/-- `FiniteSpace::range` for `Discrete`: `0..self.size` (named `rangeFS`
because the struct field is also called `range`). -/
def Discrete.rangeFS (d : Discrete) : RustRange Nat := { start := 0, stop := d.size }

/-- `Surjection<usize, usize>::map` for `Discrete`: `val as usize`, the
identity. -/
def Discrete.map (_ : Discrete) (val : Nat) : Nat := val

/-- `PartialEq for Discrete`: compares only the `size` field. -/
def Discrete.eq (a b : Discrete) : Bool := a.size == b.size

/-- `struct Binary;` (src/discrete/binary.rs), a unit struct. -/
structure Binary where
deriving DecidableEq, Repr

/-- `Binary::new()`. -/
def Binary.new : Binary := {}

/-- `Space::dim` for `Binary`. -/
def Binary.dim (_ : Binary) : Nat := 1

/-- `Space::card` for `Binary`: `Card::Finite(2)`. -/
def Binary.card (_ : Binary) : Card := Card.Finite 2

/-- `Space::sample` for `Binary`: `rng.gen()`, an arbitrary boolean from the
rng, modelled as the rng's boolean draw. -/
def Binary.sample (_ : Binary) (rng : Bool) : Bool := rng

/-- `BoundedSpace::inf` for `Binary`: `Some(false)`. -/
def Binary.inf (_ : Binary) : Option Bool := some false

/-- `BoundedSpace::sup` for `Binary`: `Some(true)`. -/
def Binary.sup (_ : Binary) : Option Bool := some true

/-- `BoundedSpace::contains` for `Binary`: always `true`. -/
def Binary.contains (_ : Binary) (_ : Bool) : Bool := true

/-- `FiniteSpace::range` for `Binary`: `false..true`. -/
def Binary.rangeFS (_ : Binary) : RustRange Bool := { start := false, stop := true }

/-- `Surjection<bool, bool>::map` for `Binary`: the identity. -/
def Binary.mapBool (_ : Binary) (val : Bool) : Bool := val

/-- `Surjection<f64, bool>::map` for `Binary`: `val > 0.0` (`f64` modelled
as `ℚ`, see the header). -/
def Binary.mapF64 (_ : Binary) (val : ℚ) : Bool := decide (0 < val)

/-- `struct Naturals;` (src/discrete/naturals.rs), a unit struct. -/
structure Naturals where
deriving DecidableEq, Repr

/-- `Space::dim` for `Naturals`. -/
def Naturals.dim (_ : Naturals) : Nat := 1

/-- `Space::card` for `Naturals`: `Card::Infinite`. -/
def Naturals.card (_ : Naturals) : Card := Card.Infinite

/-- `Space::sample` for `Naturals`: `unimplemented!()`, an unconditional
panic (`none`), regardless of the rng. -/
def Naturals.sample (_ : Naturals) (_rng : Nat) : Option Nat := none

/-- `BoundedSpace::inf` for `Naturals`: `Some(0)`. -/
def Naturals.inf (_ : Naturals) : Option Nat := some 0

/-- `BoundedSpace::sup` for `Naturals`: `None`. -/
def Naturals.sup (_ : Naturals) : Option Nat := none

/-- `BoundedSpace::contains` for `Naturals`: always `true`. -/
def Naturals.contains (_ : Naturals) (_ : Nat) : Bool := true

/-- `Claim C1`: for every `size > 0`, `Discrete::new(size)` has
`card() == Finite(size)`, `inf() == Some(0)`, `sup() == Some(size - 1)`,
and `contains(v)` holds iff `v < size`. -/
theorem C1_discrete_new_properties (size : Nat) (hpos : 0 < size)
    (d : Discrete) (hd : Discrete.new size = some d) :
    d.card = Card.Finite size ∧ d.inf = some 0 ∧ d.sup = some (size - 1) ∧
      ∀ v : Nat, d.contains v = true ↔ v < size := by
  have hd' : d = { size := size, range := { low := 0, high := size } } := by
    simp [Discrete.new, RngRange.new, hpos] at hd
    exact hd.symm
  subst hd'
  refine ⟨rfl, rfl, rfl, fun v => ?_⟩
  simp [Discrete.contains]

/-- Witness for C1 at `size = 3`, `v = 2`. -/
theorem C1_witness :
    ({ size := 3, range := { low := 0, high := 3 } } : Discrete).contains 2 = true :=
  ((C1_discrete_new_properties 3 (by decide)
      { size := 3, range := { low := 0, high := 3 } } (by decide)).2.2.2 2).mpr
    (by decide)

/-- `Claim C9`: `Naturals` has `card() == Infinite`, `inf() == Some(0)`,
`sup() == None`, and `contains(v)` for every non-negative `v`. -/
theorem C9_naturals_properties :
    Naturals.card {} = Card.Infinite ∧ Naturals.inf {} = some 0 ∧
      Naturals.sup {} = none ∧ ∀ v : Nat, Naturals.contains {} v = true :=
  ⟨rfl, rfl, rfl, fun _ => rfl⟩

/-- `Claim C2`, counterexample: `Discrete::new(0)` does not succeed — the
inner `RngRange::new(0, 0)` asserts `low < high` and panics. -/
theorem C2_counterexample : Discrete.new 0 = none := rfl

/-- `Claim C2`, amended: `Discrete::new(size)` succeeds exactly when
`size > 0`, and then `card() == Finite(size)`; for `size = 0` the
construction panics inside the sampling-range constructor. -/
theorem C2_new_succeeds_iff_positive (size : Nat) :
    (∃ d, Discrete.new size = some d ∧ d.card = Card.Finite size) ↔ 0 < size := by
  constructor
  · rintro ⟨d, hd, -⟩
    by_contra hz
    have h0 : size = 0 := Nat.eq_zero_of_not_pos hz
    subst h0
    simp [Discrete.new, RngRange.new] at hd
  · intro hpos
    refine ⟨{ size := size, range := { low := 0, high := size } }, ?_, rfl⟩
    simp [Discrete.new, RngRange.new, hpos]

/-- `Claim C3`: the code's enumeration entry point for `Binary` is
`range() = false..true`, a half-open range whose member set is `{false}`:
it omits `true` even though `sup() == Some(true)` and `card() == Finite(2)`.
This theorem evaluates the code at that failing input. -/
theorem C3_binary_range_omits_sup :
    Binary.new.card = Card.Finite 2 ∧ Binary.new.inf = some false ∧
      Binary.new.sup = some true ∧
      RustRange.membersBool Binary.new.rangeFS = [false] ∧
      RustRange.membersBool Binary.new.rangeFS ≠ [false, true] := by
  refine ⟨rfl, rfl, rfl, by decide, by decide⟩

/-- `Claim C6`: `Naturals::sample` is `unimplemented!()`: it panics and
never returns a value, for every randomness source. -/
theorem C6_naturals_sample_always_panics (rng : Nat) :
    Naturals.sample {} rng = none := rfl

/-- `Claim C8`: `Binary`'s `Surjection<bool,bool>::map` is the identity and
its `Surjection<f64,bool>::map` is `val > 0.0`: `map(1.0) == true`,
`map(-1.0) == false`, `map(0.0) == false`. -/
theorem C8_binary_surjections :
    (∀ b : Bool, Binary.new.mapBool b = b) ∧
      Binary.new.mapBool true = true ∧ Binary.new.mapBool false = false ∧
      Binary.new.mapF64 1 = true ∧ Binary.new.mapF64 (-1) = false ∧
      Binary.new.mapF64 0 = false := by
  refine ⟨fun _ => rfl, rfl, rfl, by decide, by decide, by decide⟩

/-- `Claim C10`: `Discrete`'s `Surjection<usize,usize>::map` is the
unrestricted identity: `d.map(v) == v` for every `v`, including `v ≥ size`,
where the output fails the space's own membership test. -/
theorem C10_discrete_map_is_identity (d : Discrete) (v : Nat) :
    d.map v = v ∧ (d.size ≤ v → d.contains (d.map v) = false) := by
  refine ⟨rfl, fun hge => ?_⟩
  simp [Discrete.map, Discrete.contains, Nat.not_lt_of_le hge]

/-- Witness for C10 with `d = Discrete::new(3)` and `v = 5 ≥ size`. -/
theorem C10_witness :
    ({ size := 3, range := { low := 0, high := 3 } } : Discrete).map 5 = 5 ∧
      ({ size := 3, range := { low := 0, high := 3 } } : Discrete).contains
        (({ size := 3, range := { low := 0, high := 3 } } : Discrete).map 5) = false :=
  ⟨(C10_discrete_map_is_identity { size := 3, range := { low := 0, high := 3 } } 5).1,
    (C10_discrete_map_is_identity { size := 3, range := { low := 0, high := 3 } } 5).2
      (by decide)⟩

/-- The structured deserialization errors raised by `Discrete`'s custom
`Deserialize` impl (serde's `unknown_field`, `duplicate_field`,
`missing_field`, `invalid_length`). -/
inductive DeError where
  | unknownField (name : String)
  | duplicateField (name : String)
  | missingField (name : String)
  | invalidLength (len : Nat)
deriving DecidableEq, Repr

/-- The field-identifier enum of the deserializer: `enum Field { Size }`. -/
inductive SerdeField where
  | size
deriving DecidableEq, Repr

/-- `FieldVisitor::visit_str`: `"size"` parses to `Field::Size`, any other
identifier is an `unknown_field` error. -/
def SerdeField.fromStr (s : String) : Except DeError SerdeField :=
  if s = "size" then Except.ok SerdeField.size
  else Except.error (DeError.unknownField s)

/-- The serialized form of `Discrete` (derived `Serialize` with the `range`
field skipped): a one-field record `{ "size": size }`, modelled as the list
of its (key, value) entries. -/
def Discrete.serialize (d : Discrete) : List (String × Nat) :=
  [("size", d.size)]

/-- The `while let Some(key) = map.next_key()?` loop of
`DiscreteVisitor::visit_map`: `acc` is the `size: Option<usize>` local.
Each key goes through `SerdeField.fromStr` (`?` propagates its error); a
second `size` key is a `duplicate_field` error. -/
def visitMapLoop (entries : List (String × Nat)) (acc : Option Nat) :
    Except DeError (Option Nat) :=
  match entries with
  | [] => Except.ok acc
  | (k, v) :: rest =>
    match SerdeField.fromStr k with
    | Except.error e => Except.error e
    | Except.ok SerdeField.size =>
      if acc.isSome then Except.error (DeError.duplicateField "size")
      else visitMapLoop rest (some v)

/-- `DiscreteVisitor::visit_map` (named/map encoding): run the key loop,
fail with `missing_field` if no `size` was seen, else rebuild through
`Discrete::new` (whose panic for `size = 0` is the outer `none`). -/
def Discrete.visitMap (entries : List (String × Nat)) :
    Option (Except DeError Discrete) :=
  match visitMapLoop entries none with
  | Except.error e => some (Except.error e)
  | Except.ok none => some (Except.error (DeError.missingField "size"))
  | Except.ok (some size) => (Discrete.new size).map Except.ok

/-- `DiscreteVisitor::visit_seq` (positional/sequence encoding): read the
first element as `size` (`invalid_length` if absent) and rebuild through
`Discrete::new`. -/
def Discrete.visitSeq (elems : List Nat) : Option (Except DeError Discrete) :=
  match elems with
  | [] => some (Except.error (DeError.invalidLength 0))
  | size :: _ => (Discrete.new size).map Except.ok

/-- How often the `size` key occurs among the entries of a map encoding. -/
def sizeKeyCount (entries : List (String × Nat)) : Nat :=
  (entries.filter fun kv => kv.1 == "size").length

/-- Whether some entry of a map encoding carries a key other than `size`. -/
def hasUnknownKey (entries : List (String × Nat)) : Bool :=
  entries.any fun kv => kv.1 != "size"

/-- `Claim C4`: serializing a `Discrete::new(size)` and deserializing the
result yields a space equal to the original under `Discrete`'s
size-only `PartialEq`. -/
theorem C4_serde_roundtrip (size : Nat) (d : Discrete)
    (hd : Discrete.new size = some d) :
    ∃ d2, Discrete.visitMap (Discrete.serialize d) = some (Except.ok d2) ∧
      Discrete.eq d2 d = true := by
  have hpos : 0 < size := by
    by_contra hz
    have h0 : size = 0 := Nat.eq_zero_of_not_pos hz
    subst h0
    simp [Discrete.new, RngRange.new] at hd
  have hd' : d = { size := size, range := { low := 0, high := size } } := by
    simp [Discrete.new, RngRange.new, hpos] at hd
    exact hd.symm
  subst hd'
  refine ⟨{ size := size, range := { low := 0, high := size } }, ?_, ?_⟩
  · simp [Discrete.serialize, Discrete.visitMap, visitMapLoop, SerdeField.fromStr,
      Discrete.new, RngRange.new, hpos]
  · simp [Discrete.eq]

/-- Witness for C4 at `size = 3`: the deserialized result is not a panic. -/
theorem C4_witness :
    Discrete.visitMap
      (Discrete.serialize { size := 3, range := { low := 0, high := 3 } }) ≠ none := by
  obtain ⟨d2, h1, -⟩ :=
    C4_serde_roundtrip 3 { size := 3, range := { low := 0, high := 3 } } (by decide)
  simp [h1]

/-- `Claim C7`: for `Binary`, `Naturals`, and any `Discrete::new(size)` with
`size > 0`, every value produced by sampling, by enumeration, or inside
`Some` by `inf()`/`sup()` satisfies that space's own `contains`. (For
`Naturals`, sampling panics and produces no value, so only bounds apply.) -/
theorem C7_produced_values_are_members (size : Nat) (d : Discrete)
    (hd : Discrete.new size = some d) :
    (∀ rng : Nat, d.contains (d.sample rng) = true) ∧
      (∀ v ∈ RustRange.toListNat d.rangeFS, d.contains v = true) ∧
      (∀ v, d.inf = some v → d.contains v = true) ∧
      (∀ v, d.sup = some v → d.contains v = true) ∧
      (∀ rng : Bool, Binary.new.contains (Binary.new.sample rng) = true) ∧
      (∀ b ∈ RustRange.membersBool Binary.new.rangeFS,
        Binary.new.contains b = true) ∧
      (∀ b, Binary.new.inf = some b → Binary.new.contains b = true) ∧
      (∀ b, Binary.new.sup = some b → Binary.new.contains b = true) ∧
      (∀ v, Naturals.inf {} = some v → Naturals.contains {} v = true) := by
  have hpos : 0 < size := by
    by_contra hz
    have h0 : size = 0 := Nat.eq_zero_of_not_pos hz
    subst h0
    simp [Discrete.new, RngRange.new] at hd
  have hd' : d = { size := size, range := { low := 0, high := size } } := by
    simp [Discrete.new, RngRange.new, hpos] at hd
    exact hd.symm
  subst hd'
  refine ⟨fun rng => ?_, fun v hv => ?_, fun v hv => ?_, fun v hv => ?_,
    fun _ => rfl, fun b _ => rfl, fun b _ => rfl, fun b _ => rfl, fun v _ => rfl⟩
  · simp only [Discrete.sample, RngRange.draw, Discrete.contains, Nat.zero_add,
      Nat.sub_zero, Nat.zero_add]
    exact decide_eq_true (Nat.mod_lt rng hpos)
  · simp only [Discrete.rangeFS, RustRange.toListNat, Nat.sub_zero] at hv
    rw [← List.range_eq_range'] at hv
    simp only [Discrete.contains]
    exact decide_eq_true (List.mem_range.mp hv)
  · simp only [Discrete.inf, Option.some.injEq] at hv
    subst hv
    exact decide_eq_true hpos
  · simp only [Discrete.sup, Option.some.injEq] at hv
    subst hv
    exact decide_eq_true (Nat.sub_lt hpos Nat.one_pos)

/-- Witness for C7 at `size = 2`, sampling with the draw `7`. -/
theorem C7_witness :
    ({ size := 2, range := { low := 0, high := 2 } } : Discrete).contains
      (({ size := 2, range := { low := 0, high := 2 } } : Discrete).sample 7) = true :=
  (C7_produced_values_are_members 2 { size := 2, range := { low := 0, high := 2 } }
    (by decide)).1 7

/-- With the `size` local already set, the key loop either returns it
unchanged (no more entries) or fails (a second `size` is a duplicate, any
other key is unknown). -/
theorem visitMapLoop_acc_some (entries : List (String × Nat)) (v : Nat) :
    visitMapLoop entries (some v) = Except.ok (some v) ∨
      ∃ e, visitMapLoop entries (some v) = Except.error e := by
  cases entries with
  | nil => exact Or.inl rfl
  | cons kv rest =>
    obtain ⟨k, w⟩ := kv
    by_cases hk : k = "size"
    · subst hk
      exact Or.inr ⟨DeError.duplicateField "size",
        by simp [visitMapLoop, SerdeField.fromStr]⟩
    · exact Or.inr ⟨DeError.unknownField k,
        by simp [visitMapLoop, SerdeField.fromStr, hk]⟩

/-- Starting from no `size`, the key loop ends with no `size` exactly on an
empty map. -/
theorem visitMapLoop_ok_none_iff (entries : List (String × Nat)) :
    visitMapLoop entries none = Except.ok none ↔ entries = [] := by
  cases entries with
  | nil => simp [visitMapLoop]
  | cons kv rest =>
    obtain ⟨k, w⟩ := kv
    by_cases hk : k = "size"
    · subst hk
      have hstep : visitMapLoop (("size", w) :: rest) none =
          visitMapLoop rest (some w) := by
        simp [visitMapLoop, SerdeField.fromStr]
      rw [hstep]
      constructor
      · intro hok
        rcases visitMapLoop_acc_some rest w with h1 | ⟨e, h2⟩
        · rw [h1] at hok
          cases hok
        · rw [h2] at hok
          cases hok
      · intro h
        cases h
    · simp [visitMapLoop, SerdeField.fromStr, hk]

/-- The key loop fails exactly when some key is unknown, when a `size` key
arrives while one is already set, or when `size` occurs at least twice. -/
theorem visitMapLoop_error_iff (entries : List (String × Nat)) (acc : Option Nat) :
    (∃ e, visitMapLoop entries acc = Except.error e) ↔
      (hasUnknownKey entries = true ∨
        (acc.isSome = true ∧ 1 ≤ sizeKeyCount entries) ∨
        2 ≤ sizeKeyCount entries) := by
  induction entries generalizing acc with
  | nil => simp [visitMapLoop, hasUnknownKey, sizeKeyCount]
  | cons kv rest ih =>
    obtain ⟨k, v⟩ := kv
    by_cases hk : k = "size"
    · subst hk
      cases acc with
      | some a =>
        simp [visitMapLoop, SerdeField.fromStr, hasUnknownKey, sizeKeyCount]
      | none =>
        have hstep : visitMapLoop (("size", v) :: rest) none =
            visitMapLoop rest (some v) := by
          simp [visitMapLoop, SerdeField.fromStr]
        rw [hstep, ih (some v)]
        have hcount : sizeKeyCount (("size", v) :: rest) = sizeKeyCount rest + 1 := by
          simp [sizeKeyCount]
        have hunk : hasUnknownKey (("size", v) :: rest) = hasUnknownKey rest := by
          simp [hasUnknownKey]
        rw [hcount, hunk]
        simp only [Option.isSome_some, Option.isSome_none, true_and,
          Bool.false_eq_true, false_and, false_or]
        by_cases hu : hasUnknownKey rest = true
        · simp [hu]
        · simp [hu]
          omega
    · have hloop : ∃ e, visitMapLoop ((k, v) :: rest) acc = Except.error e :=
        ⟨DeError.unknownField k, by simp [visitMapLoop, SerdeField.fromStr, hk]⟩
      have hunk : hasUnknownKey ((k, v) :: rest) = true := by
        simp [hasUnknownKey, hk]
      constructor
      · intro _
        exact Or.inl hunk
      · intro _
        exact hloop

/-- When every key of a map encoding is `size`, the `size` keys count the
whole map. -/
theorem sizeKeyCount_of_no_unknown (entries : List (String × Nat))
    (h : hasUnknownKey entries = false) :
    sizeKeyCount entries = entries.length := by
  induction entries with
  | nil => rfl
  | cons kv rest ih =>
    simp only [hasUnknownKey, List.any_cons, Bool.or_eq_false_iff] at h
    obtain ⟨h1, h2⟩ := h
    have hk : kv.1 = "size" := by
      rwa [bne_eq_false_iff_eq] at h1
    have ih' := ih (by simpa [hasUnknownKey] using h2)
    simp [sizeKeyCount, List.filter_cons, hk] at ih' ⊢
    simpa [sizeKeyCount] using ih'

/-- `Claim C5`: the `Discrete` deserializer accepts both the positional
(sequence) and the named (map) encoding of the single `size` field; the
named decoding fails with a structured error exactly when the `size` key is
missing, duplicated, or an unknown key appears; and a successful decoding
always rebuilds the value through `Discrete::new`. -/
theorem C5_deserializer_contract :
    (∀ (v : Nat) (rest : List Nat),
        Discrete.visitSeq (v :: rest) = (Discrete.new v).map Except.ok) ∧
      (∀ v : Nat,
        Discrete.visitMap [("size", v)] = (Discrete.new v).map Except.ok) ∧
      ∀ entries : List (String × Nat),
        (∃ e, Discrete.visitMap entries = some (Except.error e)) ↔
          (sizeKeyCount entries = 0 ∨ 2 ≤ sizeKeyCount entries ∨
            hasUnknownKey entries = true) := by
  refine ⟨fun v rest => rfl, fun v => ?_, fun entries => ?_⟩
  · simp [Discrete.visitMap, visitMapLoop, SerdeField.fromStr]
  · rcases hln : visitMapLoop entries none with e | acc
    · have herr : ∃ e2, visitMapLoop entries none = Except.error e2 := ⟨e, hln⟩
      rw [visitMapLoop_error_iff] at herr
      simp only [Option.isSome_none, Bool.false_eq_true, false_and,
        false_or] at herr
      have hvm : Discrete.visitMap entries = some (Except.error e) := by
        simp [Discrete.visitMap, hln]
      constructor
      · intro _
        rcases herr with h | h
        · exact Or.inr (Or.inr h)
        · exact Or.inr (Or.inl h)
      · intro _
        exact ⟨e, hvm⟩
    · cases acc with
      | none =>
        have hempty : entries = [] := (visitMapLoop_ok_none_iff entries).mp hln
        subst hempty
        constructor
        · intro _
          exact Or.inl rfl
        · intro _
          exact ⟨DeError.missingField "size",
            by simp [Discrete.visitMap, visitMapLoop]⟩
      | some sz =>
        have hnoerr : ¬∃ e, visitMapLoop entries none = Except.error e := by
          rintro ⟨e, he⟩
          rw [hln] at he
          cases he
        rw [visitMapLoop_error_iff] at hnoerr
        simp only [Option.isSome_none, Bool.false_eq_true, false_and,
          false_or] at hnoerr
        push_neg at hnoerr
        have hvm : Discrete.visitMap entries = (Discrete.new sz).map Except.ok := by
          simp [Discrete.visitMap, hln]
        constructor
        · rintro ⟨e, he⟩
          rw [hvm] at he
          rcases hnew : Discrete.new sz with _ | d
          · rw [hnew] at he
            cases he
          · rw [hnew] at he
            simp at he
        · rintro (h | h | h)
          · exfalso
            have hunk : hasUnknownKey entries = false := by
              rcases Bool.eq_false_or_eq_true (hasUnknownKey entries) with h1 | h1
              · exact absurd h1 hnoerr.1
              · exact h1
            have hlen := sizeKeyCount_of_no_unknown entries hunk
            rw [h] at hlen
            have hnil : entries = [] := List.length_eq_zero.mp hlen.symm
            subst hnil
            simp [visitMapLoop] at hln
          · exact absurd h (Nat.not_le.mpr hnoerr.2)
          · exact absurd h hnoerr.1
